import Mathlib

/-!
Verification development for the understruct repository.

understruct assembles a Node.js application from layered service
descriptors (`lib/app.js` and its class-based revision), compiles
structural interface descriptors into conformance predicates
(`lib/interface-def.js`), and exposes services across processes through
an IPC message/event protocol (`lib/ipc/client.js`, `lib/ipc/server.js`).

The definitions below are shallow embeddings of those source files:
JavaScript objects become association lists, promises become an explicit
settle-once state, thrown exceptions become `Except` errors, and the
cooperative single-threaded scheduler becomes explicit sequencing over
event traces.  Each definition is annotated with the source location it
embeds; known slips of the source (an undeclared loop variable, a swapped
argument pair, an undeclared identifier in a regex fallback) are embedded
exactly as written, since they are observable behaviour of the program.
-/

/-- Kinds of JavaScript runtime exceptions thrown by the embedded code. -/
inductive JsError where
  | typeError (msg : String)
  | referenceError (msg : String)
  | jsError (msg : String)
deriving DecidableEq, Repr

/-- A service instance bound on the backbone.  Only the attributes the
backbone itself inspects are modelled: an identity, whether the object is
an `instanceof EventEmitter`, and whether it supports the `on`/`once`
subscription contract (a capability that non-EventEmitter objects can
also have). -/
structure Service where
  sid : Nat
  isEventEmitter : Bool
  hasOnOnce : Bool
deriving DecidableEq, Repr

/-- JavaScript values, as far as the interface matcher and the message
payloads need them.  `typeof null` is `"object"`, arrays are objects,
and a missing object property reads as `undefined`. -/
inductive JsValue where
  | undefined
  | null
  | bool (b : Bool)
  | num (n : Int)
  | str (s : String)
  | fn (fid : Nat)
  | arr (elems : List JsValue)
  | obj (props : List (String × JsValue))

/-- Property access `v[name]` (interface-def.js line 82).  On `null` or
`undefined` the access itself throws a `TypeError`; on other primitives
it yields `undefined` for the property names the matcher uses; on objects
the last assignment to a key wins. -/
def getProp (v : JsValue) (name : String) : Except JsError JsValue :=
  match v with
  | .null => .error (.typeError ("Cannot read properties of null (reading " ++ name ++ ")"))
  | .undefined => .error (.typeError ("Cannot read properties of undefined (reading " ++ name ++ ")"))
  | .obj props => .ok (((props.reverse.find? (fun p => p.1 == name)).map (·.2)).getD .undefined)
  | .arr elems => .ok (if name == "length" then .num elems.length else .undefined)
  | .str s => .ok (if name == "length" then .num s.length else .undefined)
  | _ => .ok .undefined

/-! ## Interface matcher (`lib/interface-def.js`) -/

/-- The six value-kind tags of the `Tests` table (interface-def.js
lines 18-31). -/
inductive PrimTag where
  | objectT
  | functionT
  | arrayT
  | stringT
  | numberT
  | booleanT
deriving DecidableEq, Repr

/-- Lookup in the `Tests` table: maps a kind-tag string to its test, or
nothing for an unsupported tag (interface-def.js line 96). -/
def primTag? (t : String) : Option PrimTag :=
  if t == "function" then some .functionT
  else if t == "object" then some .objectT
  else if t == "array" then some .arrayT
  else if t == "string" then some .stringT
  else if t == "number" then some .numberT
  else if t == "boolean" then some .booleanT
  else none

/-- The type test each tag denotes (interface-def.js lines 18-31).
`typeof null`, `typeof []` and `typeof {}` are all `"object"`. -/
def Tests : PrimTag → JsValue → Bool
  | .objectT, v => match v with
    | .null | .arr _ | .obj _ => true
    | _ => false
  | .functionT, v => match v with
    | .fn _ => true
    | _ => false
  | .arrayT, v => match v with
    | .arr _ => true
    | _ => false
  | .stringT, v => match v with
    | .str _ => true
    | _ => false
  | .numberT, v => match v with
    | .num _ => true
    | _ => false
  | .booleanT, v => match v with
    | .bool _ => true
    | _ => false

mutual
/-- An interface descriptor: either a list of required property names
(interface-def.js line 65) or an object mapping property names to
expected kinds (line 58). -/
inductive IfDef where
  | arrDef (names : List String)
  | objDef (props : IfProps)
/-- The ordered properties of an object-form descriptor (a JS object,
keys unique in well-formed descriptors). -/
inductive IfProps where
  | nil
  | cons (name : String) (d : IfDesc) (rest : IfProps)
/-- The expected kind of one property: a tag string, or a nested
compound descriptor (interface-def.js lines 93-106). -/
inductive IfDesc where
  | tag (t : String)
  | sub (d : IfDef)
end

mutual
/-- A compiled property test: a resolved kind tag, or a compiled nested
descriptor (the closure built at interface-def.js line 105). -/
inductive CTest where
  | prim (t : PrimTag)
  | nestedTest (c : CProps)
/-- The compiled test list of `compile` (interface-def.js lines 75-83),
pairing each property name with its compiled test. -/
inductive CProps where
  | nil
  | cons (name : String) (t : CTest) (rest : CProps)
end

/-- Worker for the array-to-object conversion, carrying the names seen
so far: assigning a key already present in a JS object keeps its
original position (with the identical value `"object"`), so later
duplicates are dropped. -/
def listToObjGo : List String → List String → IfProps
  | [], _ => .nil
  | n :: rest, seen =>
      if n ∈ seen then listToObjGo rest seen
      else .cons n (.tag "object") (listToObjGo rest (n :: seen))

/-- The array-to-object conversion of interface-def.js lines 65-70:
`ifdef.reduce( (def, item) => { def[item] = "object"; return def }, {} )`. -/
def listToObj (names : List String) : IfProps :=
  listToObjGo names []

mutual
/-- Termination measure on descriptors. -/
def IfDef.msr : IfDef → Nat
  | .arrDef names => names.length + 1
  | .objDef p => p.msr + 1
/-- Termination measure on descriptor property lists. -/
def IfProps.msr : IfProps → Nat
  | .nil => 0
  | .cons _ d rest => d.msr + 1 + rest.msr
/-- Termination measure on property kinds. -/
def IfDesc.msr : IfDesc → Nat
  | .tag _ => 0
  | .sub d => d.msr + 1
end

theorem listToObjGo_msr (names : List String) :
    ∀ seen, (listToObjGo names seen).msr ≤ names.length := by
  induction names with
  | nil => intro seen; simp [listToObjGo, IfProps.msr]
  | cons n rest ih =>
      intro seen
      by_cases h : n ∈ seen
      · simp only [listToObjGo, if_pos h]
        exact le_trans (ih seen) (Nat.le_succ _)
      · simp only [listToObjGo, if_neg h, IfProps.msr, IfDesc.msr, List.length_cons]
        have := ih (n :: seen)
        omega

mutual
/-- `compile(ifdef)` (interface-def.js lines 58-90): an array descriptor
is first converted to object form, then a test is generated per
property.  A bad kind tag aborts compilation.  (The `__IsIFDef`
already-compiled shortcut is the identity and is not modelled.) -/
def compile : IfDef → Except JsError CProps
  | .arrDef names => compileProps (listToObj names)
  | .objDef props => compileProps props
termination_by d => d.msr
decreasing_by
  · have := listToObjGo_msr names []
    simp only [IfDef.msr, listToObj]
    omega
  · simp only [IfDef.msr, IfProps.msr]; omega
/-- Per-property test generation (the `map` of interface-def.js
lines 75-83). -/
def compileProps : IfProps → Except JsError CProps
  | .nil => .ok .nil
  | .cons n d rest => do
      let t ← test d n
      let ts ← compileProps rest
      .ok (.cons n t ts)
termination_by p => p.msr
decreasing_by
  · simp only [IfProps.msr]; omega
  · simp only [IfProps.msr]; omega
/-- `test(type, name)` (interface-def.js lines 93-106): a string tag is
looked up in `Tests` (unsupported tags throw); a compound type is
compiled recursively. -/
def test (d : IfDesc) (name : String) : Except JsError CTest :=
  match d with
  | .tag t =>
      match primTag? t with
      | some p => .ok (.prim p)
      | none => .error (.jsError ("Unsupported type " ++ t ++ " for property " ++ name))
  | .sub sd => do
      let c ← compile sd
      .ok (.nestedTest c)
termination_by d.msr
decreasing_by
  · simp only [IfDesc.msr]; omega
end

mutual
/-- The compiled predicate `iftest(obj)` (interface-def.js lines 85-87):
`tests.reduce( (ok, test) => ok && test(obj), true )`.  `&&` short
circuits, so once a test fails the remaining property reads are not
evaluated; a property read on `null`/`undefined` propagates its
`TypeError`. -/
def iftest : CProps → JsValue → Except JsError Bool
  | .nil, _ => .ok true
  | .cons n t rest, v => do
      let pv ← getProp v n
      let b ← applyTest t pv
      if b then iftest rest v else .ok false
/-- Apply one compiled property test to the property value.  For a
nested descriptor this is `obj => obj !== undefined && isa(obj)`
(interface-def.js line 105). -/
def applyTest : CTest → JsValue → Except JsError Bool
  | .prim p, v => .ok (Tests p v)
  | .nestedTest c, v =>
      match v with
      | .undefined => .ok false
      | _ => iftest c v
end

/-- Whether a descriptor declares at least one property. -/
def declaresProp : IfDef → Bool
  | .arrDef names => !names.isEmpty
  | .objDef .nil => false
  | .objDef (.cons _ _ _) => true

/-- The object descriptor that maps each of the given names to the kind
tag `"object"` — the right-hand side of the equivalence stated in the
spec for list descriptors. -/
def objOfNames : List String → IfProps
  | [] => .nil
  | n :: rest => .cons n (.tag "object") (objOfNames rest)

/-! ## The app backbone (`App` class revision in the repository:
`part_000` lines 448-720, superseding `lib/app.js`) -/

/-- The payload of a `service-bind` notification: the object literal
`{ name, service }` emitted at `bind` and passed to every
`onServiceBind` callback. -/
structure BindEvent where
  name : String
  service : Service
deriving DecidableEq, Repr

/-- The listener method forwarded by the backbone: `"on"` or `"once"`. -/
inductive Method where
  | on
  | once
deriving DecidableEq, Repr

/-- A callback registered on the `service-bind` bus: either a
user-supplied callback (identified by a number, its invocations
collected in the `App.log`), or the retry closure that
`_addEventListener` registers through `onServiceBind` when the scope of
a qualified event name is not yet bound. -/
inductive SBCallback where
  | user (cbId : Nat)
  | retryAdd (eventName : String) (listenerId : Nat) (method : Method)
deriving DecidableEq, Repr

/-- One `service-bind` handler as registered by `onServiceBind`
(part_000 lines 552-563): it filters events by `name`, invokes the
callback on a match, and removes itself afterwards when `once`. -/
structure SBListener where
  filter : String
  cb : SBCallback
  once : Bool
deriving DecidableEq, Repr

/-- The backbone state.  `services` is the chronological bind history
(the JS `this.services` map reads the latest entry per name); the
`service-bind` handlers are kept apart from other event registrations of
the underlying `EventEmitter` for clarity (`ownBus` holds subscriptions
made through the backbone with unqualified or empty-scope names, and
`delegated` records subscriptions forwarded to a bound service's own
`on`/`once`). -/
structure App where
  services : List (String × Service) := []
  sbListeners : List SBListener := []
  log : List (Nat × BindEvent) := []
  ownBus : List (String × Nat × Method) := []
  delegated : List (Nat × String × Nat × Method) := []
deriving DecidableEq, Repr

/-- `this.services[name]`: the latest binding under `name`, if any. -/
def App.lookup (app : App) (name : String) : Option Service :=
  (app.services.reverse.find? (fun p => p.1 == name)).map (·.2)

/-- The outcome of `eventName.indexOf(':')` and the two substring
operations of `_addEventListener` (part_000 lines 475-505): a positive
index yields a qualified name, index 0 an empty scope, no colon a plain
name. -/
inductive EvName where
  | qualified (source rest : String)
  | emptyScope (rest : String)
  | plain
deriving DecidableEq, Repr

/-- Split a possibly qualified event name at its first `':'`. -/
def parseEvent (e : String) : EvName :=
  match e.data.findIdx? (fun c => c == ':') with
  | none => .plain
  | some 0 => .emptyScope ⟨e.data.drop 1⟩
  | some (i + 1) => .qualified ⟨e.data.take (i + 1)⟩ ⟨e.data.drop (i + 2)⟩

/-- `App._addEventListener(eventName, listener, method)` (part_000
lines 473-508).  A qualified name whose scope is bound requires the
bound instance to be `instanceof EventEmitter` (an error otherwise) and
delegates the stripped event name to it; an unbound scope defers the
whole call through `onServiceBind` (the scope is unbound here, so
`onServiceBind` reduces to registering a once-off `service-bind`
handler, inlined below); an empty scope or an unqualified name
subscribes on the backbone's own emitter. -/
def App.addEventListener (e : String) (lid : Nat) (m : Method) (app : App) :
    Except JsError App :=
  match parseEvent e with
  | .qualified src rest =>
      match app.lookup src with
      | none =>
          .ok { app with sbListeners := app.sbListeners ++ [⟨src, .retryAdd e lid m, true⟩] }
      | some svc =>
          if svc.isEventEmitter then
            .ok { app with delegated := app.delegated ++ [(svc.sid, rest, lid, m)] }
          else
            .error (.jsError ("Event source must be an EventEmitter: " ++ src))
  | .emptyScope rest =>
      .ok { app with ownBus := app.ownBus ++ [(rest, lid, m)] }
  | .plain =>
      .ok { app with ownBus := app.ownBus ++ [(e, lid, m)] }

/-- `App.on` (part_000 lines 519-521). -/
def App.onListener (e : String) (lid : Nat) (app : App) : Except JsError App :=
  App.addEventListener e lid .on app

/-- `App.once` (part_000 lines 525-527). -/
def App.onceListener (e : String) (lid : Nat) (app : App) : Except JsError App :=
  App.addEventListener e lid .once app

/-- Run the `service-bind` handlers fired by an emit, in registration
order: a user callback is invoked with the bind event; a deferred
`_addEventListener` retry re-enters `addEventListener` (which can throw
when the freshly bound source is not an `EventEmitter`; the exception
propagates out of `emit`, aborting the remaining handlers). -/
def App.runCallbacks : List SBListener → BindEvent → App → Except JsError App
  | [], _, app => .ok app
  | l :: rest, ev, app => do
      let app' ←
        match l.cb with
        | .user cbId => .ok { app with log := app.log ++ [(cbId, ev)] }
        | .retryAdd e lid m => App.addEventListener e lid m app
      App.runCallbacks rest ev app'

/-- `App.bind(name, service)` (part_000 lines 512-515): store the
binding, then emit `service-bind` with `{ name, service }`.  The emit
walks the handlers registered at that moment; each matching once-off
handler removes itself after its callback returns. -/
def App.bind (name : String) (svc : Service) (app : App) : Except JsError App :=
  let app1 : App := { app with services := app.services ++ [(name, svc)] }
  let ev : BindEvent := ⟨name, svc⟩
  let fired := app1.sbListeners.filter (fun l => l.filter == name)
  let app2 : App :=
    { app1 with sbListeners := app1.sbListeners.filter (fun l => !(l.filter == name && l.once)) }
  App.runCallbacks fired ev app2

/-- `App.onServiceBind(name, callback, once = true)` (part_000
lines 535-564) for a user callback: when the name is already bound the
callback is invoked immediately (and a handler is additionally
registered only when `once` is false); when unbound, a filtering
`service-bind` handler is registered. -/
def App.onServiceBind (name : String) (cbId : Nat) (once : Bool) (app : App) : App :=
  match app.lookup name with
  | some svc =>
      let app1 : App := { app with log := app.log ++ [(cbId, ⟨name, svc⟩)] }
      if once then app1
      else { app1 with sbListeners := app1.sbListeners ++ [⟨name, .user cbId, once⟩] }
  | none =>
      { app with sbListeners := app.sbListeners ++ [⟨name, .user cbId, once⟩] }

/-- The bind events a given user callback has been invoked with, in
order. -/
def userInvocations (cbId : Nat) (app : App) : List BindEvent :=
  (app.log.filter (fun p => p.1 == cbId)).map (·.2)

/-! ## `readArgNames`, `load` and `start` (part_000 lines 612-718)

The source contains three slips that are embedded as written because
they are observable behaviour:

* `load` calls `readArgNames( name, def )` although the signature is
  `readArgNames( fn, name )` (part_000 lines 612 and 646), so the
  regular expressions run against the service *name* (whose `toString`
  is itself) instead of the factory source;
* the fallback branch of `readArgNames` reads the undeclared identifier
  `fns` (part_000 line 621), so when the first regular expression does
  not match, a `ReferenceError` is thrown;
* the layer loop of `start` is `for( let idx = 0; ...; i++ )`
  (part_000 line 682): the update expression reads the undeclared
  identifier `i`, throwing a `ReferenceError` after the first layer's
  body completes. -/

/-- `\s` on the whitespace characters that can occur in the modelled
strings. -/
def isWs (c : Char) : Bool :=
  c == ' ' || c == '\t' || c == '\n' || c == '\r'

/-- `\w`: ASCII letters, digits and underscore. -/
def isWord (c : Char) : Bool :=
  c.isAlphanum || c == '_'

/-- The suffix `\s*\(([^)]+)` of the first regular expression of
`readArgNames` (part_000 line 616): optional whitespace, an opening
parenthesis, then a non-empty capture of characters up to the first
closing parenthesis (or the end of the string). -/
def tailMatch (cs : List Char) : Option String :=
  match cs.dropWhile isWs with
  | '(' :: rest =>
      let cap := rest.takeWhile (fun c => c ≠ ')')
      if cap.isEmpty then none else some ⟨cap⟩
  | _ => none

/-- JS `String.prototype.split(',')` on the character list. -/
def splitOnComma : List Char → List (List Char)
  | [] => [[]]
  | c :: rest =>
      match splitOnComma rest with
      | cur :: parts => if c = ',' then [] :: cur :: parts else (c :: cur) :: parts
      | [] => [[c]]

/-- JS `String.prototype.trim()`: strip whitespace from both ends. -/
def trimChars (cs : List Char) : List Char :=
  ((cs.dropWhile isWs).reverse.dropWhile isWs).reverse

/-- The full first regular expression
`^(?:function(?:\s+\w+)?)?\s*\(([^)]+)` of `readArgNames`: an optional
`function` keyword with an optional whitespace-separated identifier,
then `tailMatch`.  The optional groups are tried greedily, as a
backtracking engine does; because `(` is neither a word nor a
whitespace character the greedy runs are deterministic. -/
def matchFnArgs (s : String) : Option (List String) :=
  let cs := s.data
  let viaFunction : Option String :=
    if cs.take 8 = "function".data then
      let r1 := cs.drop 8
      let ws := r1.takeWhile isWs
      let afterWs := r1.dropWhile isWs
      let word := afterWs.takeWhile isWord
      let inner : Option String :=
        if ws.isEmpty || word.isEmpty then none
        else tailMatch (afterWs.drop word.length)
      match inner with
      | some cap => some cap
      | none => tailMatch r1
    else none
  let cap? : Option String :=
    match viaFunction with
    | some cap => some cap
    | none => tailMatch cs
  cap?.map (fun cap => (splitOnComma cap.data).map (fun a => (⟨trimChars a⟩ : String)))

/-- `readArgNames` as it actually executes from `load` (part_000
lines 612-627 with the call site's swapped arguments): the string
matched is the service name.  When the first regular expression fails,
the second branch evaluates the undeclared identifier `fns` and throws
a `ReferenceError`; the remaining branches are unreachable. -/
def readArgNames (first : String) : Except JsError (List String) :=
  match matchFnArgs first with
  | some args => .ok args
  | none => .error (.referenceError "fns is not defined")

/-- A service descriptor (part_000 lines 629-660): a ready-made service
value, or a factory function.  The factory body receives its resolved
positional arguments; its `this`-context effects on the backbone are
outside the claims modelled here. -/
inductive Descriptor where
  | value (s : Service)
  | factory (body : List Service → Except JsError Service)

/-- Resolve each declared argument name against the backbone
(part_000 lines 647-653), throwing on the first name with no binding. -/
def resolveArgs : List String → String → App → Except JsError (List Service)
  | [], _, _ => .ok []
  | an :: rest, name, app =>
      match app.lookup an with
      | some s => do
          let xs ← resolveArgs rest name app
          .ok (s :: xs)
      | none => .error (.jsError ("Unresolved dependency: " ++ an ++ " for " ++ name))

/-- `load(name, def, app)` (part_000 lines 640-660).  A plain value is
returned as is.  A factory first has `readArgNames( name, def )`
evaluated — with the swapped arguments described above — then its
arguments resolved, then its body run with the backbone as context. -/
def load (name : String) (d : Descriptor) (app : App) : Except JsError Service :=
  match d with
  | .value s => .ok s
  | .factory body => do
      let argNames ← readArgNames name
      let args ← resolveArgs argNames name app
      body args

/-- One service layer: a JS object mapping names to descriptors, in key
order. -/
def Layer := List (String × Descriptor)

/-- Start all loads of a layer against the pre-layer backbone (the
`names.map` building `pending`, part_000 lines 693-698); `Promise.all`
propagates the first rejection. -/
def loadAll : Layer → App → Except JsError (List Service)
  | [], _ => .ok []
  | (n, d) :: rest, app => do
      let s ← load n d app
      let ss ← loadAll rest app
      .ok (s :: ss)

/-- Bind the resolved services of a layer in name order (the
`services.forEach` of part_000 lines 706-712). -/
def bindAll : List String → List Service → App → Except JsError App
  | n :: ns, s :: ss, app => do
      let app' ← App.bind n s app
      bindAll ns ss app'
  | _, _, app => .ok app

/-- Process one layer to its barrier: resolve every descriptor against
the backbone as it was when the layer started, then bind all results. -/
def processLayer (layer : Layer) (app : App) : Except JsError App := do
  let services ← loadAll layer app
  bindAll (layer.map (·.1)) services app

/-- The `layers` argument of `start`: an array of layers, or any
non-array value (only its description is kept). -/
inductive LayersArg where
  | arr (layers : List Layer)
  | notArray (descr : String)

/-- `start(layers, log)` (part_000 lines 671-718).  A non-array
argument throws `TypeError`.  An empty array skips the loop and returns
the fresh backbone.  With at least one layer, the first loop iteration
runs to completion (resolve the layer, then bind every resolved
service), after which the loop update `i++` reads the undeclared
identifier `i` and throws a `ReferenceError`; any exception from the
layer body itself propagates first. -/
def start (layersArg : LayersArg) : Except JsError App :=
  match layersArg with
  | .notArray _ => .error (.typeError "Service layers must be an array")
  | .arr [] => .ok {}
  | .arr (l0 :: _) => do
      let _ ← processLayer l0 {}
      .error (.referenceError "i is not defined")

/-! ## IPC client: per-call correlation (`lib/ipc/client.js`) -/

/-- The value a pending call's promise is rejected with: the plain
error text taken from an `error.<name>` payload's `message` field
(client.js lines 124-128), or the object `{ id, message }` built by the
timeout callback (lines 142-145). -/
inductive RejectVal where
  | errText (s : String)
  | timeoutObj (id : String) (msg : String)
deriving DecidableEq, Repr

/-- A promise settles at most once; `resolve`/`reject` on a settled
promise are no-ops. -/
inductive PromiseSt where
  | pending
  | resolved (v : JsValue)
  | rejected (e : RejectVal)

/-- `resolve(v)` on the promise. -/
def promiseResolve (v : JsValue) : PromiseSt → PromiseSt
  | .pending => .resolved v
  | st => st

/-- `reject(e)` on the promise. -/
def promiseReject (e : RejectVal) : PromiseSt → PromiseSt
  | .pending => .rejected e
  | st => st

/-- The client-side state of one message call with id `id`: the
deferred promise, whether `pendings[id]` still holds the entry
(client.js line 147), and whether the timeout timer is still armed
(neither cancelled by `clearTimeout` in `clear`, client.js line 111,
nor already fired). -/
structure CallState where
  id : String
  promise : PromiseSt
  inMap : Bool
  timerLive : Bool

/-- The state right after the call is dispatched (client.js
lines 135-148): promise pending, entry registered, timer armed. -/
def initCall (id : String) : CallState :=
  ⟨id, .pending, true, true⟩

/-- The events that can subsequently reach this call: a
`{ id, message }` response on topic `message.<name>` with the matching
id, a `{ id, message }` error on `error.<name>` with the matching id,
or the expiry of the armed timeout. -/
inductive CallEvent where
  | response (v : JsValue)
  | errorMsg (s : String)
  | timeout

/-- One scheduler step of the client (client.js lines 101-153).
Response and error arrivals go through `clear(id)`: when the entry is
present it is deleted, the timer cancelled, and the stored
`resolve`/`reject` invoked; when absent, `clear` returns a stub whose
handles do nothing.  The timeout callback rejects the promise with
`{ id, message: 'IPC message dispatch timeout' }` but does **not**
remove the entry or touch the map. -/
def stepCall (st : CallState) (ev : CallEvent) : CallState :=
  match ev with
  | .response v =>
      if st.inMap then
        { st with promise := promiseResolve v st.promise, inMap := false, timerLive := false }
      else st
  | .errorMsg s =>
      if st.inMap then
        { st with promise := promiseReject (.errText s) st.promise, inMap := false, timerLive := false }
      else st
  | .timeout =>
      if st.timerLive then
        { st with promise := promiseReject (.timeoutObj st.id "IPC message dispatch timeout") st.promise,
                  timerLive := false }
      else st

/-- Run a call from dispatch through a trace of events. -/
def runCall (id : String) (evs : List CallEvent) : CallState :=
  evs.foldl stepCall (initCall id)

/-- The settled state the first event of a trace produces. -/
def firstOutcome (id : String) : CallEvent → PromiseSt
  | .response v => .resolved v
  | .errorMsg s => .rejected (.errText s)
  | .timeout => .rejected (.timeoutObj id "IPC message dispatch timeout")

/-! ## IPC server: message handling (`lib/ipc/server.js` lines 101-126) -/

/-- The value a handler fails with, as the error path reads it:
an optional structured `description` field, an optional generic
`message` field, and the string conversion.  `Option.none` stands for
an absent field; JS `||` also skips an empty string. -/
structure Failure where
  description : Option String
  message : Option String
  toStr : String

/-- JS truthiness of an optional string under `||`: absent or empty
reads as false. -/
def jsOrStr : Option String → Option String
  | some s => if s = "" then none else some s
  | none => none

/-- `err.description || err.message || err.toString()` (server.js
line 119). -/
def errMsg (f : Failure) : String :=
  match jsOrStr f.description with
  | some d => d
  | none =>
      match jsOrStr f.message with
      | some m => m
      | none => f.toStr

/-- The outcome of one handler invocation: a result value, or a thrown
or rejected failure (both are caught by the `try`/`catch` around the
awaited call, server.js lines 111-122). -/
inductive HandlerResult where
  | ok (v : JsValue)
  | fail (f : Failure)

/-- One payload emitted back to the originating socket. -/
structure Emission where
  topic : String
  id : String
  message : JsValue

/-- Argument normalization (server.js lines 108-110): a non-array
`args` payload is wrapped as a single-element array. -/
def normalizeArgs : JsValue → List JsValue
  | .arr xs => xs
  | v => [v]

/-- The message listener body (server.js lines 105-123): normalize the
arguments, invoke the handler inside `try`/`catch`, and emit either
`{ id, message: result }` on `message.<name>` or `{ id, message }` on
`error.<name>`, where the error text follows the `errMsg` priority
chain.  The function is total: a handler failure always becomes an
error emission, never a crash of the host process. -/
def handleCall (name : String) (handler : List JsValue → HandlerResult)
    (id : String) (rawArgs : JsValue) : Emission :=
  match handler (normalizeArgs rawArgs) with
  | .ok v => ⟨"message." ++ name, id, v⟩
  | .fail f => ⟨"error." ++ name, id, .str (errMsg f)⟩

/-- The host processing a sequence of in-flight calls for one message
name: each invocation is handled independently of the others. -/
def serverProcess (name : String) (handler : List JsValue → HandlerResult)
    (calls : List (String × JsValue)) : List Emission :=
  calls.map (fun c => handleCall name handler c.1 c.2)

/-! ## Supporting lemmas -/

theorem promiseResolve_settled (v : JsValue) (p : PromiseSt) (h : p ≠ .pending) :
    promiseResolve v p = p := by
  cases p with
  | pending => exact absurd rfl h
  | resolved _ => rfl
  | rejected _ => rfl

theorem promiseReject_settled (e : RejectVal) (p : PromiseSt) (h : p ≠ .pending) :
    promiseReject e p = p := by
  cases p with
  | pending => exact absurd rfl h
  | resolved _ => rfl
  | rejected _ => rfl

theorem stepCall_settled (st : CallState) (ev : CallEvent) (h : st.promise ≠ .pending) :
    (stepCall st ev).promise = st.promise := by
  cases ev with
  | response v =>
      by_cases hm : st.inMap <;>
        simp [stepCall, hm, promiseResolve_settled _ _ h]
  | errorMsg s =>
      by_cases hm : st.inMap <;>
        simp [stepCall, hm, promiseReject_settled _ _ h]
  | timeout =>
      by_cases ht : st.timerLive <;>
        simp [stepCall, ht, promiseReject_settled _ _ h]

theorem foldl_stepCall_settled (l : List CallEvent) :
    ∀ st : CallState, st.promise ≠ .pending → (l.foldl stepCall st).promise = st.promise := by
  induction l with
  | nil => intro st _; rfl
  | cons e l ih =>
      intro st h
      have h1 := stepCall_settled st e h
      simp only [List.foldl]
      rw [ih _ (by rw [h1]; exact h), h1]

theorem firstOutcome_ne_pending (id : String) (ev : CallEvent) :
    firstOutcome id ev ≠ .pending := by
  cases ev <;> simp [firstOutcome]

theorem stepCall_init (id : String) (ev : CallEvent) :
    (stepCall (initCall id) ev).promise = firstOutcome id ev := by
  cases ev <;> rfl

/-! ## Claims -/

/-- Claim C1 (code bug): the claim states that for every valid layer
list with resolvable backward dependencies, `start` binds every
declared name in layer order.  The code cannot do this: the layer loop
of `start` is `for( let idx = 0; idx < layers.length; i++ )`
(part_000 line 682), whose update expression reads the undeclared
identifier `i`.  On the spec's own two-layer scenario, `start` binds
layer 0 and then throws `ReferenceError: i is not defined` instead of
ever starting layer 1 or returning the backbone. -/
theorem start_loop_update_referenceError :
    start (.arr [[("settings", .value ⟨1, false, false⟩)],
                 [("db", .factory (fun _ => .ok ⟨2, false, false⟩))]]) =
      .error (.referenceError "i is not defined") := by
  rfl

/-- Claim C2: per message call, exactly one of the three outcomes —
matching response, matching error, timeout expiry — settles the
deferred result, with the payload the claim states; any events arriving
after the first are no-ops on the promise.  The first event of the
trace determines the settled state no matter what follows. -/
theorem client_call_first_outcome_wins (id : String) (ev : CallEvent)
    (rest : List CallEvent) :
    (runCall id (ev :: rest)).promise = firstOutcome id ev := by
  have h1 := stepCall_init id ev
  have h2 : (stepCall (initCall id) ev).promise ≠ .pending := by
    rw [h1]; exact firstOutcome_ne_pending id ev
  show (rest.foldl stepCall (stepCall (initCall id) ev)).promise = firstOutcome id ev
  rw [foldl_stepCall_settled rest _ h2, h1]

/-- Claim C3 (code bug): the claim states that an unresolvable backward
dependency fails `start` with an `UnresolvedDependencyError` naming the
dependency and the dependent service — which is what the repository's
own test asserts (`Unresolved dependency: 'settings' for 'db'`).  The
code instead calls `readArgNames( name, def )` with swapped arguments
(part_000 line 646), so the regular expression runs against the service
name `"db"`, fails to match, and the fallback branch throws
`ReferenceError: fns is not defined` (part_000 line 621) before the
dependency check is ever reached. -/
theorem start_missing_dep_fns_referenceError :
    start (.arr [[("db", .factory (fun _ => .ok ⟨2, false, false⟩))]]) =
      .error (.referenceError "fns is not defined") := by
  rfl

/-- Claim C4 (code bug): the claim (and the module's own protocol
comment) states the pending entry is removed exactly once, on whichever
of response arrival, error arrival or timeout expiry occurs first.  The
timeout callback (client.js lines 142-145) only rejects the promise; it
never calls `clear`, so after a timeout with no response the entry is
still in the pending map even though the call is already settled. -/
theorem timeout_leaves_pending_entry :
    (runCall "m.0" [.timeout]).inMap = true ∧
    (runCall "m.0" [.timeout]).promise =
      .rejected (.timeoutObj "m.0" "IPC message dispatch timeout") := by
  exact ⟨rfl, rfl⟩

/-- Claim C5 (code bug): the claim states that `cb` is invoked with
the bound instance itself.  The code invokes
`callback({ name, service })` — the bind record — in both the
already-bound path and the `service-bind` handler (part_000
lines 546 and 555-556, same in lib/app.js lines 47 and 56-57), while
the README (`this.onServiceBind('db', ( db ) => { service.db = db })`)
and the repository's own forward-dependency tests (which then call
`service.db.getMessage()`) require the callback argument to *be* the
instance.  Evaluating the code at that failing input: in both the
registered-before-bind and the registered-after-bind scenario the
single invocation's payload is the record `{ name := "db", service }`
(whose type is the bind event, not the service), so the dependent
service's field ends up holding the record instead of the instance.
The claim's exactly-once and synchronous-timing parts do hold: one
invocation per scenario, and in the already-bound scenario it is
logged during the `onServiceBind` call itself. -/
theorem onServiceBind_passes_record_not_instance :
    ((App.bind "db" ⟨1, false, false⟩ (App.onServiceBind "db" 0 true {})).map
        (userInvocations 0) =
      .ok [BindEvent.mk "db" ⟨1, false, false⟩])
    ∧ ((App.bind "db" ⟨1, false, false⟩ {}).map
          (fun b => userInvocations 0 (App.onServiceBind "db" 0 true b)) =
      .ok [BindEvent.mk "db" ⟨1, false, false⟩]) :=
  ⟨rfl, rfl⟩

/-- Claim C9 counterexample: the claim states `start` rejects the empty
sequence with a configuration error, but `start([])` passes the
`Array.isArray` check — the only validation performed — skips the layer
loop entirely and returns a fresh, empty backbone. -/
theorem start_empty_layers_cex : start (.arr []) = .ok {} := by
  rfl

/-- Claim C9, amended: `start` validates only that its layers argument
is an array, failing with the configuration `TypeError` for every
non-array argument; the empty array is accepted and yields a backbone
with no bound services. -/
theorem start_validation_amended (descr : String) :
    start (.notArray descr) = .error (.typeError "Service layers must be an array")
    ∧ start (.arr []) = .ok {} :=
  ⟨rfl, rfl⟩

/-- A service that supports the `on`/`once` subscription contract but
is not an `instanceof EventEmitter`. -/
def onOnceOnlySvc : Service := ⟨1, false, true⟩

/-- A service that is an `EventEmitter` instance. -/
def eeSvc : Service := ⟨1, true, true⟩

/-- A backbone with `onOnceOnlySvc` bound under `"s"`. -/
def appWithOnOnce : App := { services := [("s", onOnceOnlySvc)] }

/-- A backbone with `eeSvc` bound under `"s"`. -/
def appWithEE : App := { services := [("s", eeSvc)] }

/-- Claim C6 counterexample: the claim states that a bound scope only
needs to support the `on`/`once` contract ("a capability requirement,
not a type requirement").  But `_addEventListener` (part_000
lines 491-494) checks `source instanceof EventEmitter` and throws for
any other source: subscribing `"s:e"` while `"s"` is bound to an object
that has `on`/`once` but is not an `EventEmitter` raises an error
instead of delegating. -/
theorem addEventListener_capability_cex :
    onOnceOnlySvc.hasOnOnce = true
    ∧ App.addEventListener "s:e" 0 .on appWithOnOnce =
        .error (.jsError "Event source must be an EventEmitter: s") :=
  ⟨rfl, rfl⟩

/-- Claim C6, amended: for a subscription through the backbone's
`on`/`once` with a qualified name `scope:event`, (1) if the scope is
bound to an `EventEmitter` instance, the subscription is delegated to
that instance's own `on`/`once` with the stripped event name; (2) if
the scope is bound to anything that is not an `EventEmitter` instance —
even one supporting the `on`/`once` contract — an error is thrown (a
type requirement, not a capability requirement); (3) if the scope is
not yet bound, the subscription is deferred via a once-off
`service-bind` handler, and (4) retried — and then delegated — once the
scope binds; (5) an empty scope subscribes the stripped name and (6) an
unqualified name subscribes as is, both on the backbone's own bus. -/
theorem addEventListener_scoped_routing_amended
    (e src rest : String) (lid : Nat) (m : Method) (app : App) (svc : Service) :
    (parseEvent e = .qualified src rest → app.lookup src = some svc →
      svc.isEventEmitter = true →
      App.addEventListener e lid m app =
        .ok { app with delegated := app.delegated ++ [(svc.sid, rest, lid, m)] })
  ∧ (parseEvent e = .qualified src rest → app.lookup src = some svc →
      svc.isEventEmitter = false →
      App.addEventListener e lid m app =
        .error (.jsError ("Event source must be an EventEmitter: " ++ src)))
  ∧ (parseEvent e = .qualified src rest → app.lookup src = none →
      App.addEventListener e lid m app =
        .ok { app with sbListeners := app.sbListeners ++ [⟨src, .retryAdd e lid m, true⟩] })
  ∧ (parseEvent e = .qualified src rest → app.lookup src = none →
      app.sbListeners = [] → svc.isEventEmitter = true →
      (App.addEventListener e lid m app).bind (fun a1 => App.bind src svc a1) =
        .ok { app with services := app.services ++ [(src, svc)], sbListeners := [],
                       delegated := app.delegated ++ [(svc.sid, rest, lid, m)] })
  ∧ (parseEvent e = .emptyScope rest →
      App.addEventListener e lid m app =
        .ok { app with ownBus := app.ownBus ++ [(rest, lid, m)] })
  ∧ (parseEvent e = .plain →
      App.addEventListener e lid m app =
        .ok { app with ownBus := app.ownBus ++ [(e, lid, m)] }) := by
  refine ⟨?_, ?_, ?_, ?_, ?_, ?_⟩
  · intro hp hl hee
    simp [App.addEventListener, hp, hl, hee]
  · intro hp hl hee
    simp [App.addEventListener, hp, hl, hee]
  · intro hp hl
    simp [App.addEventListener, hp, hl]
  · intro hp hl hsb hee
    have h1 : App.addEventListener e lid m app =
        .ok { app with sbListeners := app.sbListeners ++ [⟨src, .retryAdd e lid m, true⟩] } := by
      simp [App.addEventListener, hp, hl]
    rw [h1]
    simp only [hsb, List.nil_append]
    simp [App.bind, App.runCallbacks, App.addEventListener, hp, App.lookup,
      List.filter, Except.bind, Bind.bind, List.reverse_append, List.find?, hee]
  · intro hp
    simp [App.addEventListener, hp]
  · intro hp
    simp [App.addEventListener, hp]

/-- Witness for the amended C6: each routing case evaluated at concrete
inputs (`"s:e"` against a bound `EventEmitter`, against a bound
non-`EventEmitter`, against an unbound scope before and after its bind,
and `":e"` and `"ping"` on the backbone's own bus). -/
theorem addEventListener_scoped_routing_amended_witness :
    App.addEventListener "s:e" 0 .on appWithEE =
        .ok { appWithEE with delegated := appWithEE.delegated ++ [(eeSvc.sid, "e", 0, .on)] }
    ∧ App.addEventListener "s:e" 0 .on appWithOnOnce =
        .error (.jsError ("Event source must be an EventEmitter: " ++ "s"))
    ∧ App.addEventListener "s:e" 0 .on {} =
        .ok { ({} : App) with
              sbListeners := ({} : App).sbListeners ++ [⟨"s", .retryAdd "s:e" 0 .on, true⟩] }
    ∧ (App.addEventListener "s:e" 0 .on {}).bind (fun a1 => App.bind "s" eeSvc a1) =
        .ok { ({} : App) with
              services := ({} : App).services ++ [("s", eeSvc)], sbListeners := [],
              delegated := ({} : App).delegated ++ [(eeSvc.sid, "e", 0, .on)] }
    ∧ App.addEventListener ":e" 0 .on {} =
        .ok { ({} : App) with ownBus := ({} : App).ownBus ++ [("e", 0, .on)] }
    ∧ App.addEventListener "ping" 0 .on {} =
        .ok { ({} : App) with ownBus := ({} : App).ownBus ++ [("ping", 0, .on)] } :=
  ⟨(addEventListener_scoped_routing_amended "s:e" "s" "e" 0 .on appWithEE eeSvc).1
      rfl rfl rfl,
   (addEventListener_scoped_routing_amended "s:e" "s" "e" 0 .on appWithOnOnce
      onOnceOnlySvc).2.1 rfl rfl rfl,
   (addEventListener_scoped_routing_amended "s:e" "s" "e" 0 .on {} eeSvc).2.2.1 rfl rfl,
   (addEventListener_scoped_routing_amended "s:e" "s" "e" 0 .on {} eeSvc).2.2.2.1
      rfl rfl rfl rfl,
   (addEventListener_scoped_routing_amended ":e" "s" "e" 0 .on {} eeSvc).2.2.2.2.1 rfl,
   (addEventListener_scoped_routing_amended "ping" "s" "e" 0 .on {} eeSvc).2.2.2.2.2 rfl⟩

/-- Claim C7: a message handler invocation that throws or rejects makes
the Host emit `{ callId, errorMessage }` on topic `error.<name>` back to
the originating peer, where the error text is taken, in priority order,
from the failure's `description` field, its `message` field, then its
string conversion (empty fields are skipped by `||`); `handleCall` is a
total function, so the failure never escapes the handler wrapper (the
host process does not crash), and each in-flight call of a processed
sequence is handled independently of the others. -/
theorem host_failure_error_reply
    (name id : String) (handler : List JsValue → HandlerResult) (raw : JsValue)
    (f : Failure) (hf : handler (normalizeArgs raw) = .fail f) :
    handleCall name handler id raw = ⟨"error." ++ name, id, .str (errMsg f)⟩
    ∧ (∀ (d : String) (om : Option String) (ts : String),
        d ≠ "" → errMsg ⟨some d, om, ts⟩ = d)
    ∧ (∀ (msg ts : String), msg ≠ "" → errMsg ⟨none, some msg, ts⟩ = msg)
    ∧ (∀ ts : String, errMsg ⟨none, none, ts⟩ = ts)
    ∧ (∀ (pre post : List (String × JsValue)) (c : String × JsValue),
        (serverProcess name handler (pre ++ c :: post)).get? pre.length =
          some (handleCall name handler c.1 c.2)) := by
  refine ⟨?_, ?_, ?_, ?_, ?_⟩
  · simp [handleCall, hf]
  · intro d om ts hd
    simp [errMsg, jsOrStr, hd]
  · intro msg ts hm
    simp [errMsg, jsOrStr, hm]
  · intro ts
    simp [errMsg, jsOrStr]
  · intro pre post c
    induction pre with
    | nil => rfl
    | cons p ps ih =>
        simpa [serverProcess] using ih

/-- Witness for C7: a handler that rejects with a failure carrying a
`message` field but no `description`, evaluated at concrete inputs. -/
theorem host_failure_error_reply_witness :
    handleCall "getMessage" (fun _ => .fail ⟨none, some "boom", "Error: boom"⟩)
        "getMessage.0" (.arr []) =
      ⟨"error." ++ "getMessage", "getMessage.0",
        .str (errMsg ⟨none, some "boom", "Error: boom"⟩)⟩
    ∧ errMsg ⟨some "worse", some "boom", "Error: boom"⟩ = "worse"
    ∧ errMsg ⟨none, some "boom", "Error: boom"⟩ = "boom"
    ∧ errMsg ⟨none, none, "Error: silent"⟩ = "Error: silent"
    ∧ (serverProcess "getMessage" (fun _ => .fail ⟨none, some "boom", "Error: boom"⟩)
        ([("other.7", .null)] ++ ("getMessage.0", .arr []) :: [])).get? 1 =
      some (handleCall "getMessage" (fun _ => .fail ⟨none, some "boom", "Error: boom"⟩)
        "getMessage.0" (.arr [])) :=
  have T := host_failure_error_reply "getMessage" "getMessage.0"
    (fun _ => .fail ⟨none, some "boom", "Error: boom"⟩) (.arr [])
    ⟨none, some "boom", "Error: boom"⟩ rfl
  have T2 := T.2
  ⟨T.1, T2.1 "worse" (some "boom") "Error: boom" (by decide),
   T2.2.1 "boom" "Error: boom" (by decide), T2.2.2.1 "Error: silent",
   T2.2.2.2 [("other.7", .null)] [] ("getMessage.0", .arr [])⟩

theorem listToObjGo_nodup (names : List String) :
    ∀ seen, names.Nodup → (∀ n ∈ names, n ∉ seen) →
      listToObjGo names seen = objOfNames names := by
  induction names with
  | nil => intro seen _ _; rfl
  | cons n rest ih =>
      intro seen hnd hdisj
      have hn : n ∉ seen := hdisj n (by simp)
      simp only [listToObjGo, if_neg hn, objOfNames]
      rw [ih (n :: seen) hnd.of_cons]
      intro x hx
      simp only [List.mem_cons]
      push_neg
      exact ⟨fun hxe => (List.nodup_cons.mp hnd).1 (hxe ▸ hx), hdisj x (by simp [hx])⟩

/-- Claim C8: for a duplicate-free name list (an object literal cannot
map one name twice), compiling the list descriptor and compiling the
object descriptor that maps each listed name to the kind tag `"object"`
yield the same verdict — and the same exceptions — on every candidate
value. -/
theorem compile_list_object_equiv (names : List String) (v : JsValue)
    (h : names.Nodup) :
    (compile (.arrDef names)).bind (fun c => iftest c v) =
    (compile (.objDef (objOfNames names))).bind (fun c => iftest c v) := by
  have heq : listToObj names = objOfNames names := by
    unfold listToObj
    exact listToObjGo_nodup names [] h (by simp)
  simp only [compile, heq]

/-- Witness for C8 at the spec's own example `["a", "b"]` versus
`{ "a": "object", "b": "object" }`, on a concrete candidate. -/
theorem compile_list_object_equiv_witness :
    (["a", "b"] : List String).Nodup
    ∧ (compile (.arrDef ["a", "b"])).bind
        (fun c => iftest c (.obj [("a", .obj []), ("b", .null)])) =
      (compile (.objDef (objOfNames ["a", "b"]))).bind
        (fun c => iftest c (.obj [("a", .obj []), ("b", .null)])) :=
  ⟨by decide,
   compile_list_object_equiv ["a", "b"] (.obj [("a", .obj []), ("b", .null)]) (by decide)⟩

theorem compileProps_cons_ok (n : String) (d0 : IfDesc) (rest : IfProps) (c : CProps)
    (h : compileProps (.cons n d0 rest) = .ok c) :
    ∃ t ts, c = .cons n t ts := by
  simp only [compileProps] at h
  cases ht : test d0 n with
  | error e => rw [ht] at h; simp [Except.bind, Bind.bind] at h
  | ok t =>
      rw [ht] at h
      cases hr : compileProps rest with
      | error e => rw [hr] at h; simp [Except.bind, Bind.bind] at h
      | ok ts =>
          rw [hr] at h
          simp only [Bind.bind, Except.bind, Except.ok.injEq] at h
          exact ⟨t, ts, h.symm⟩

/-- Claim C10: a compiled predicate for any descriptor declaring at
least one property is not total over arbitrary candidates: applied to
`null` or `undefined`, the very first property access `obj[name]`
throws a `TypeError` instead of the predicate returning `false`. -/
theorem iftest_throws_on_nullish (d : IfDef) (c : CProps) (hc : compile d = .ok c)
    (hd : declaresProp d = true) :
    (∃ m, iftest c .null = .error (.typeError m))
    ∧ (∃ m, iftest c .undefined = .error (.typeError m)) := by
  have hcons : ∃ n t ts, c = .cons n t ts := by
    cases d with
    | arrDef names =>
        cases names with
        | nil => simp [declaresProp] at hd
        | cons n ns =>
            simp only [compile, listToObj, listToObjGo, List.not_mem_nil, if_false] at hc
            obtain ⟨t, ts, hts⟩ := compileProps_cons_ok _ _ _ _ hc
            exact ⟨n, t, ts, hts⟩
    | objDef props =>
        cases props with
        | nil => simp [declaresProp] at hd
        | cons n d0 rest =>
            simp only [compile] at hc
            obtain ⟨t, ts, hts⟩ := compileProps_cons_ok _ _ _ _ hc
            exact ⟨n, t, ts, hts⟩
  obtain ⟨n, t, ts, rfl⟩ := hcons
  constructor
  · exact ⟨"Cannot read properties of null (reading " ++ n ++ ")",
      by simp [iftest, getProp, Bind.bind, Except.bind]⟩
  · exact ⟨"Cannot read properties of undefined (reading " ++ n ++ ")",
      by simp [iftest, getProp, Bind.bind, Except.bind]⟩

/-- Witness for C10 at the one-property descriptor `["a"]`. -/
theorem iftest_throws_on_nullish_witness :
    compile (.arrDef ["a"]) = .ok (.cons "a" (.prim .objectT) .nil)
    ∧ declaresProp (.arrDef ["a"]) = true
    ∧ ((∃ m, iftest (.cons "a" (.prim .objectT) .nil) .null = .error (.typeError m))
      ∧ (∃ m, iftest (.cons "a" (.prim .objectT) .nil) .undefined = .error (.typeError m))) :=
  have hc : compile (.arrDef ["a"]) = .ok (.cons "a" (.prim .objectT) .nil) := by
    simp [compile, compileProps, test, listToObj, listToObjGo, primTag?, Bind.bind, Except.bind]
  ⟨hc, rfl, iftest_throws_on_nullish (.arrDef ["a"]) (.cons "a" (.prim .objectT) .nil) hc rfl⟩
